import Mathlib

/-!
# Verification of the kaku domain core

A shallow embedding of the kaku note-taking backend (Rust) in Lean 4, together
with theorems settling the specified properties of its slug generation, its
in-memory repositories (`InMemoryProjectBook`, `InMemoryNoteBook`,
`InMemoryThoughtBook`) and its domain service (`ThoughtService`).

Modelling choices:
* `Uuid` values and timestamps are modelled as `Nat`; the nondeterministic
  generation of fresh UUIDs (`Uuid::new_v4`) and of timestamps (`Utc::now`)
  is made explicit by passing the generated value (`genId`, `now`) as an
  argument.
* `HashMap` values are modelled as association lists with `HashMap` semantics:
  insert replaces any previous binding of the key.
* The `unidecode` crate (an external dependency, not part of the repository)
  is modelled as a parameter `uni : Char → String` giving the per-character
  transliteration; the crate guarantees pure-ASCII output and acts as the
  identity on printable ASCII, which appear as hypotheses where a theorem
  needs them.
* Rust `str::trim` (Unicode white space) and `str::to_lowercase` (Unicode
  lowercasing) are modelled on their ASCII fragments, which is exact on the
  ASCII strings produced by `unidecode`; `Char.toLower` of Lean core is
  exactly ASCII lowercasing.
* Fallible Rust functions returning `anyhow::Result` are embedded with
  `Except KakuError`; since `anyhow` erases error types, all domain error
  variants of the program are merged into the single inductive `KakuError`.
* The stateful repository operations are embedded as explicit state passing:
  an operation takes the backing-store state and returns its result *and* the
  state after the call, so that mutations preceding an error return (which do
  happen in the source) are captured faithfully.
* The event channel (`UnboundedSender`) is modelled as the list of events
  published so far; a send appends to the list.
-/

deriving instance DecidableEq for Except

/-! ## Association lists with HashMap semantics -/

/-- `HashMap::get`: lookup the binding of a key in an association list. -/
def alLookup {κ α : Type} [BEq κ] (k : κ) : List (κ × α) → Option α
  | [] => none
  | (k2, v) :: rest => if k2 == k then some v else alLookup k rest

/-- Drop every binding of a key (at most one exists in well-formed use). -/
def alErase {κ α : Type} [BEq κ] (k : κ) (l : List (κ × α)) : List (κ × α) :=
  l.filter (fun e => !(e.1 == k))

/-- `HashMap::insert`: bind a key to a value, replacing any previous binding. -/
def alInsert {κ α : Type} [BEq κ] (k : κ) (v : α) (l : List (κ × α)) : List (κ × α) :=
  (k, v) :: alErase k l

/-- `HashMap::contains_key`. -/
def alContains {κ α : Type} [BEq κ] (k : κ) (l : List (κ × α)) : Bool :=
  (alLookup k l).isSome

/-! ## Character-level helpers of the slug pipeline -/

/-- Rust `char::is_ascii_alphanumeric`: `'0'..='9' | 'A'..='Z' | 'a'..='z'`. -/
def isAsciiAlphanumeric (c : Char) : Bool :=
  (48 ≤ c.toNat && c.toNat ≤ 57) || (65 ≤ c.toNat && c.toNat ≤ 90) ||
    (97 ≤ c.toNat && c.toNat ≤ 122)

/-- Rust `char::is_whitespace` (Unicode `White_Space`) restricted to ASCII,
which is exact on the ASCII output of `unidecode`. -/
def isRustWhitespace (c : Char) : Bool :=
  c.toNat == 9 || c.toNat == 10 || c.toNat == 11 || c.toNat == 12 ||
    c.toNat == 13 || c.toNat == 32

/-- Rust `str::trim` on a character list: drop white space from both ends. -/
def trimChars (l : List Char) : List Char :=
  ((l.dropWhile isRustWhitespace).reverse.dropWhile isRustWhitespace).reverse

/-- The `unidecode` crate applied to a string: per-character transliteration
`uni`, concatenated. -/
def uniChars (uni : Char → String) (l : List Char) : List Char :=
  (l.map (fun c => (uni c).data)).flatten

/-- The closure in `Project::generate_slug`:
`if c.is_ascii_alphanumeric() { c } else { '-' }`. -/
def dashifyChar (c : Char) : Char :=
  if isAsciiAlphanumeric c then c else '-'

/-- Rust `str::split('-')`: the fragments between the occurrences of `'-'`,
empty fragments included. -/
def splitDash : List Char → List (List Char)
  | [] => [[]]
  | c :: cs =>
    if c = '-' then [] :: splitDash cs
    else
      match splitDash cs with
      | [] => [[c]]
      | p :: ps => (c :: p) :: ps

/-- Rust `Vec::join("-")`: interleave the fragments with single dashes. -/
def joinDash : List (List Char) → List Char
  | [] => []
  | [p] => p
  | p :: ps => p ++ '-' :: joinDash ps

/-- Membership of the character class `[a-z0-9]` (lowercase ASCII
alphanumeric), used to state the slug character-set properties. -/
def isLowerAlnum (c : Char) : Bool :=
  (97 ≤ c.toNat && c.toNat ≤ 122) || (48 ≤ c.toNat && c.toNat ≤ 57)

/-- `noDoubleDash l = true` iff `l` has no two consecutive `'-'`. -/
def noDoubleDash : List Char → Bool
  | [] => true
  | [_] => true
  | a :: b :: rest => !(a == '-' && b == '-') && noDoubleDash (b :: rest)

/-! ## Domain entities (src/models) -/

/-- `Project` (src/models/project.rs). -/
structure Project where
  project_id : Nat
  universe_id : Nat
  created_at : Nat
  project_name : String
  slug : String
  locked : Bool
deriving Repr, DecidableEq

/-- `CreateProjectCommand` (src/models/project.rs). -/
structure CreateProjectCommand where
  project_name : String
  universe_id : Nat
deriving Repr, DecidableEq

/-- `Note` (src/models/mod.rs). -/
structure Note where
  note_id : Nat
  imported_at : Nat
  stylo_id : Nat
  project_id : Nat
  content : String
deriving Repr, DecidableEq

/-- `CreateNoteCommand` (src/models/mod.rs). -/
structure CreateNoteCommand where
  imported_at : Nat
  stylo_id : Nat
  project_slug : String
  content : String
deriving Repr, DecidableEq

/-- `Thought` (src/models/thought.rs). -/
structure Thought where
  thought_id : Nat
  parent_id : Option Nat
  imported_at : Nat
  scribe_id : Nat
  project_id : Nat
  content : String
deriving Repr, DecidableEq

/-- `CreateThoughtCommand` (src/models/thought.rs). -/
structure CreateThoughtCommand where
  imported_at : Nat
  parent_id : Option Nat
  scribe_id : Nat
  project_slug : String
  content : String
deriving Repr, DecidableEq

/-- `NoteChangeKind` (src/models/mod.rs). -/
inductive NoteChangeKind where
  | Created
  | Scratched
deriving Repr, DecidableEq

/-- `ProjectChangeKind` (src/models/project.rs). -/
inductive ProjectChangeKind where
  | Created
  | Locked
  | Unlocked
deriving Repr, DecidableEq

/-- `ThoughtChangeKind` (src/models/thought.rs). -/
inductive ThoughtChangeKind where
  | Created
  | Disputed (thought_id : Nat)
deriving Repr, DecidableEq

/-- `ModelKind` (src/models/event.rs; the `Thought` variant is the one used
by `ThoughtService::create_thought`). -/
inductive ModelKind where
  | Note (note_id : Nat) (project_id : Nat) (change_kind : NoteChangeKind)
  | Project (project_id : Nat) (universe_id : Nat) (change_kind : ProjectChangeKind)
  | Thought (thought_id : Nat) (project_id : Nat) (change_kind : ThoughtChangeKind)
deriving Repr, DecidableEq

/-- `ModelEvent` (src/models/event.rs). -/
structure ModelEvent where
  model : ModelKind
  timestamp : Nat
deriving Repr, DecidableEq

/-- The domain error variants of the program, merged into one type because
the source erases them behind `anyhow::Error`.  `anyhowMsg` stands for an
`anyhow!("...")` string error, `ProjectNotFoundId` for
`ProjectBookError::ProjectNotFound(Uuid)`, `ProjectNotFound` for
`ThoughtServiceError::ProjectNotFound(String)`. -/
inductive KakuError where
  | anyhowMsg (msg : String)
  | ProjectNotFoundId (project_id : Nat)
  | DuplicateSlug (slug : String)
  | NoteNotFound (note_id : Nat)
  | ProjectNotFound (slug : String)
  | ProjectAlreadyExists (slug : String)
  | UniverseNotFound
  | InvalidParentReference (thought_id : Nat)
deriving Repr, DecidableEq

/-! ## Slug generation and Project creation (src/models/project.rs) -/

/-- `Project::generate_slug` (src/models/project.rs, lines 76-89):
`unidecode(name).trim().to_lowercase()` mapped through `dashifyChar`, then
`split('-')`, drop the empty fragments, `join("-")`. -/
def Project.generate_slug (uni : Char → String) (name : String) : String :=
  let s : List Char :=
    ((trimChars (uniChars uni name.data)).map Char.toLower).map dashifyChar
  ⟨joinDash ((splitDash s).filter (fun p => !p.isEmpty))⟩

/-- `Project::create` (src/models/project.rs, lines 58-73): reject a name
that is empty after trimming, otherwise build the project with the trimmed
name and the generated slug. -/
def Project.create (uni : Char → String) (genId now : Nat)
    (command : CreateProjectCommand) : Except KakuError Project :=
  if (trimChars command.project_name.data).isEmpty then
    .error (.anyhowMsg "Project name cannot be empty")
  else
    .ok { project_id := genId
          universe_id := command.universe_id
          created_at := now
          project_name := ⟨trimChars command.project_name.data⟩
          slug := Project.generate_slug uni command.project_name
          locked := false }

/-! ## InMemoryProjectBook (src/adapter/project_book.rs) -/

/-- The two backing maps of `InMemoryProjectBook`. -/
structure ProjectBookState where
  projects : List (Nat × Project)
  slugs : List (String × Nat)
deriving Repr, DecidableEq

/-- The empty `InMemoryProjectBook` (`Default`). -/
def ProjectBookState.empty : ProjectBookState := { projects := [], slugs := [] }

/-- First critical section of `InMemoryProjectBook::create` (lines 54-60):
build the project and check for a duplicate slug under a read lock on
`slugs`.  The read guard is a temporary that is dropped at the end of the
`if` condition, so no lock is held when this section ends. -/
def InMemoryProjectBook.createCheck (uni : Char → String) (genId now : Nat)
    (command : CreateProjectCommand) (st : ProjectBookState) :
    Except KakuError Project :=
  match Project.create uni genId now command with
  | .error e => .error e
  | .ok project =>
    if alContains project.slug st.slugs then
      .error (.DuplicateSlug project.slug)
    else
      .ok project

/-- Second critical section of `InMemoryProjectBook::create` (lines 62-66):
with write locks on both maps, insert into `projects` and `slugs`. -/
def InMemoryProjectBook.createInsert (project : Project) (st : ProjectBookState) :
    ProjectBookState :=
  { projects := alInsert project.project_id project st.projects
    slugs := alInsert project.slug project.project_id st.slugs }

/-- `InMemoryProjectBook::create` (lines 54-69) as one sequential call: the
check section followed, when it passed, by the insert section. -/
def InMemoryProjectBook.create (uni : Char → String) (genId now : Nat)
    (command : CreateProjectCommand) (st : ProjectBookState) :
    Except KakuError Project × ProjectBookState :=
  match InMemoryProjectBook.createCheck uni genId now command st with
  | .error e => (.error e, st)
  | .ok project => (.ok project, InMemoryProjectBook.createInsert project st)

/-- `InMemoryProjectBook::get` (lines 71-75). -/
def InMemoryProjectBook.get (project_id : Nat) (st : ProjectBookState) : Option Project :=
  alLookup project_id st.projects

/-- `InMemoryProjectBook::get_by_slug` (lines 77-88): resolve the slug to an
id through `slugs`, then the id through `projects`. -/
def InMemoryProjectBook.get_by_slug (slug : String) (st : ProjectBookState) : Option Project :=
  match alLookup slug st.slugs with
  | some project_id => InMemoryProjectBook.get project_id st
  | none => none

/-- `InMemoryProjectBook::update` (lines 90-110).  Note the source order:
the old slug binding is removed *before* the duplicate check, and the
`DuplicateSlug` early return keeps that removal, so the state is mutated on
this error path — the embedding returns the post-call state in both cases. -/
def InMemoryProjectBook.update (project : Project) (st : ProjectBookState) :
    Except KakuError Project × ProjectBookState :=
  let slugs1 :=
    match alLookup project.project_id st.projects with
    | some existing => alErase existing.slug st.slugs
    | none => st.slugs
  match alLookup project.slug slugs1 with
  | some existing_id =>
    if existing_id ≠ project.project_id then
      (.error (.DuplicateSlug project.slug), { st with slugs := slugs1 })
    else
      (.ok project,
        { projects := alInsert project.project_id project st.projects
          slugs := alInsert project.slug project.project_id slugs1 })
  | none =>
    (.ok project,
      { projects := alInsert project.project_id project st.projects
        slugs := alInsert project.slug project.project_id slugs1 })

/-- `InMemoryProjectBook::delete` (lines 112-123): remove the project, fail
with `ProjectNotFound` if it is absent, then remove its slug binding. -/
def InMemoryProjectBook.delete (project_id : Nat) (st : ProjectBookState) :
    Except KakuError Unit × ProjectBookState :=
  match alLookup project_id st.projects with
  | none => (.error (.ProjectNotFoundId project_id), st)
  | some project =>
    (.ok (),
      { projects := alErase project_id st.projects
        slugs := alErase project.slug st.slugs })

/-! ## InMemoryNoteBook (src/adapter/note_book.rs) -/

/-- The backing map of `InMemoryNoteBook`. -/
structure NoteBookState where
  notes : List (Nat × Note)
deriving Repr, DecidableEq

/-- The empty `InMemoryNoteBook` (`Default`). -/
def NoteBookState.empty : NoteBookState := { notes := [] }

/-- `InMemoryNoteBook::add` (lines 47-59), with the resolved `project_id`
argument it is called with by `ThoughtService::create_note`. -/
def InMemoryNoteBook.add (genId : Nat) (command : CreateNoteCommand)
    (project_id : Nat) (st : NoteBookState) : Note × NoteBookState :=
  let note : Note :=
    { note_id := genId
      imported_at := command.imported_at
      stylo_id := command.stylo_id
      project_id := project_id
      content := command.content }
  (note, { notes := alInsert note.note_id note st.notes })

/-- `InMemoryNoteBook::get` (lines 61-68). -/
def InMemoryNoteBook.get (note_id : Nat) (st : NoteBookState) : Except KakuError Note :=
  match alLookup note_id st.notes with
  | some note => .ok note
  | none => .error (.NoteNotFound note_id)

/-- `InMemoryNoteBook::sync` (lines 70-75): a plain insert — it succeeds and
stores the note whether or not its id was present. -/
def InMemoryNoteBook.sync (note : Note) (st : NoteBookState) :
    Except KakuError Note × NoteBookState :=
  (.ok note, { notes := alInsert note.note_id note st.notes })

/-- `InMemoryNoteBook::delete` (lines 77-83): `remove(&id)` then
`ok_or(NoteNotFound)` — the removed note, or the error if it was absent. -/
def InMemoryNoteBook.delete (note_id : Nat) (st : NoteBookState) :
    Except KakuError Note × NoteBookState :=
  match alLookup note_id st.notes with
  | none => (.error (.NoteNotFound note_id), st)
  | some note => (.ok note, { notes := alErase note_id st.notes })

/-! ## InMemoryThoughtBook (src/adapter/thought_book.rs) -/

/-- The backing map of `InMemoryThoughtBook`. -/
structure ThoughtBookState where
  thoughts : List (Nat × Thought)
deriving Repr, DecidableEq

/-- The empty `InMemoryThoughtBook` (`Default`). -/
def ThoughtBookState.empty : ThoughtBookState := { thoughts := [] }

/-- `InMemoryThoughtBook::add` (lines 36-55): reject a dangling
`parent_id`, otherwise build the thought and insert it. -/
def InMemoryThoughtBook.add (genId : Nat) (command : CreateThoughtCommand)
    (project_id : Nat) (st : ThoughtBookState) :
    Except KakuError Thought × ThoughtBookState :=
  match command.parent_id with
  | some parent_id =>
    if alContains parent_id st.thoughts then
      let thought : Thought :=
        { thought_id := genId
          parent_id := command.parent_id
          imported_at := command.imported_at
          scribe_id := command.scribe_id
          project_id := project_id
          content := command.content }
      (.ok thought, { thoughts := alInsert thought.thought_id thought st.thoughts })
    else
      (.error (.anyhowMsg "Parent thought does not exist"), st)
  | none =>
    let thought : Thought :=
      { thought_id := genId
        parent_id := command.parent_id
        imported_at := command.imported_at
        scribe_id := command.scribe_id
        project_id := project_id
        content := command.content }
    (.ok thought, { thoughts := alInsert thought.thought_id thought st.thoughts })

/-- `InMemoryThoughtBook::get` (lines 57-59): absence is `none`, not an error. -/
def InMemoryThoughtBook.get (thought_id : Nat) (st : ThoughtBookState) : Option Thought :=
  alLookup thought_id st.thoughts

/-- `InMemoryThoughtBook::sync` (lines 61-66): a plain insert — it succeeds
and stores the thought whether or not its id was present. -/
def InMemoryThoughtBook.sync (thought : Thought) (st : ThoughtBookState) :
    Except KakuError Thought × ThoughtBookState :=
  (.ok thought, { thoughts := alInsert thought.thought_id thought st.thoughts })

/-! ## ThoughtService (src/service/thought.rs) -/

/-- The state a `ThoughtService` can reach: the three repositories it holds
handles to, and the list of events published so far on its channel. -/
structure ServiceState where
  noteBook : NoteBookState
  projectBook : ProjectBookState
  thoughtBook : ThoughtBookState
  events : List ModelEvent
deriving Repr, DecidableEq

/-- The initial service state: empty repositories, no event published. -/
def ServiceState.empty : ServiceState :=
  { noteBook := NoteBookState.empty
    projectBook := ProjectBookState.empty
    thoughtBook := ThoughtBookState.empty
    events := [] }

/-- `ThoughtService::create_note` (lines 69-88): resolve the slug, fail with
`ProjectNotFound` if it does not resolve, otherwise add the note and publish
one `Note/Created` event. -/
def ThoughtService.create_note (genId now : Nat) (command : CreateNoteCommand)
    (st : ServiceState) : Except KakuError Note × ServiceState :=
  match InMemoryProjectBook.get_by_slug command.project_slug st.projectBook with
  | none => (.error (.ProjectNotFound command.project_slug), st)
  | some project =>
    let (note, nb) := InMemoryNoteBook.add genId command project.project_id st.noteBook
    (.ok note,
      { st with
        noteBook := nb
        events := st.events ++
          [{ model := .Note note.note_id note.project_id .Created, timestamp := now }] })

/-- `ThoughtService::scratch_note` (lines 93-110): delegate deletion to the
note book; on success publish one `Note/Scratched` event.  The service file
also maps an absent-value result to `ThoughtServiceError::NoteNotFound`, but
`NoteBook::delete` as defined in the adapter (the signature this embedding
follows) already returns the `NoteNotFound` error itself, which propagates
through `?` — under either reading a scratch of a missing id observes
`NoteNotFound` and changes nothing. -/
def ThoughtService.scratch_note (now : Nat) (note_id : Nat) (st : ServiceState) :
    Except KakuError Note × ServiceState :=
  match InMemoryNoteBook.delete note_id st.noteBook with
  | (.error e, nb) => (.error e, { st with noteBook := nb })
  | (.ok note, nb) =>
    (.ok note,
      { st with
        noteBook := nb
        events := st.events ++
          [{ model := .Note note.note_id note.project_id .Scratched, timestamp := now }] })

/-- `ThoughtService::create_project` (lines 115-139): derive the slug, fail
fast with `ProjectAlreadyExists` when `get_by_slug` already resolves (the
source applies `generate_slug` a second time to the derived slug in this
check), otherwise delegate to the repository and publish one
`Project/Created` event. -/
def ThoughtService.create_project (uni : Char → String) (genId now : Nat)
    (command : CreateProjectCommand) (st : ServiceState) :
    Except KakuError Project × ServiceState :=
  let slug := Project.generate_slug uni command.project_name
  match InMemoryProjectBook.get_by_slug (Project.generate_slug uni slug) st.projectBook with
  | some _ => (.error (.ProjectAlreadyExists slug), st)
  | none =>
    match InMemoryProjectBook.create uni genId now command st.projectBook with
    | (.error e, pb) => (.error e, { st with projectBook := pb })
    | (.ok project, pb) =>
      (.ok project,
        { st with
          projectBook := pb
          events := st.events ++
            [{ model := .Project project.project_id project.universe_id .Created,
               timestamp := now }] })

/-- `ThoughtService::create_thought` (lines 145-171): resolve the project
slug, then check the parent reference if one is given, then delegate the add
and publish one `Thought/Created` event. -/
def ThoughtService.create_thought (genId now : Nat) (command : CreateThoughtCommand)
    (st : ServiceState) : Except KakuError Thought × ServiceState :=
  match InMemoryProjectBook.get_by_slug command.project_slug st.projectBook with
  | none => (.error (.ProjectNotFound command.project_slug), st)
  | some project =>
    match command.parent_id with
    | some parent_id =>
      if (InMemoryThoughtBook.get parent_id st.thoughtBook).isNone then
        (.error (.InvalidParentReference parent_id), st)
      else
        match InMemoryThoughtBook.add genId command project.project_id st.thoughtBook with
        | (.error e, tb) => (.error e, { st with thoughtBook := tb })
        | (.ok thought, tb) =>
          (.ok thought,
            { st with
              thoughtBook := tb
              events := st.events ++
                [{ model := .Thought thought.thought_id thought.project_id .Created,
                   timestamp := now }] })
    | none =>
      match InMemoryThoughtBook.add genId command project.project_id st.thoughtBook with
      | (.error e, tb) => (.error e, { st with thoughtBook := tb })
      | (.ok thought, tb) =>
        (.ok thought,
          { st with
            thoughtBook := tb
            events := st.events ++
              [{ model := .Thought thought.thought_id thought.project_id .Created,
                 timestamp := now }] })

/-! ## Concrete inputs and states used by the claim theorems -/

/-- The transliteration that keeps ASCII characters and drops the rest: one
concrete instantiation of the `uni` parameter agreeing with `unidecode` on
ASCII input, used by the concrete witnesses.  (`String.singleton`, the
identity transliteration, is another and is also used below.) -/
def uniAscii (c : Char) : String :=
  if c.toNat < 128 then String.singleton c else ""

/-- The argument of the failed update in the C1 trace: project 1 renamed to
"b", as a caller that read project 1, renamed it and re-derived its slug
would build it. -/
def c1UpdateArg : Project :=
  { project_id := 1, universe_id := 0, created_at := 0, project_name := "b",
    slug := "b", locked := false }

/-- C1 trace, step 1: create a project named "a" (fresh id 1). -/
def c1Trace1 : Except KakuError Project × ProjectBookState :=
  InMemoryProjectBook.create String.singleton 1 0 ⟨"a", 0⟩ ProjectBookState.empty

/-- C1 trace, step 2: create a project named "b" (fresh id 2). -/
def c1Trace2 : Except KakuError Project × ProjectBookState :=
  InMemoryProjectBook.create String.singleton 2 0 ⟨"b", 0⟩ c1Trace1.2

/-- C1 trace, step 3: update project 1 to slug "b" — rejected as a
duplicate, but only after the binding of "a" has been removed from the
slugs map. -/
def c1Trace3 : Except KakuError Project × ProjectBookState :=
  InMemoryProjectBook.update c1UpdateArg c1Trace2.2

/-- C1 trace, step 4: create a second project named "a" (fresh id 3) — the
duplicate check consults the slugs map, which no longer lists "a". -/
def c1Trace4 : Except KakuError Project × ProjectBookState :=
  InMemoryProjectBook.create String.singleton 3 0 ⟨"a", 0⟩ c1Trace3.2

/-- The project the first racing `create` of the C2 schedule builds. -/
def c2ProjA : Project :=
  { project_id := 1, universe_id := 0, created_at := 0,
    project_name := "Test Project", slug := "test-project", locked := false }

/-- The project the second racing `create` of the C2 schedule builds. -/
def c2ProjB : Project :=
  { project_id := 2, universe_id := 0, created_at := 0,
    project_name := "Test Project", slug := "test-project", locked := false }

/-- The store after the interleaved schedule check A, check B, insert A,
insert B of two concurrent creates with colliding names. -/
def c2RaceState : ProjectBookState :=
  InMemoryProjectBook.createInsert c2ProjB (InMemoryProjectBook.createInsert c2ProjA ProjectBookState.empty)

/-- A note whose id is absent from the store it is synced into (C4). -/
def c4Note : Note :=
  { note_id := 1, imported_at := 0, stylo_id := 2, project_id := 3, content := "a note" }

/-- A thought whose id is absent from the store it is synced into (C4). -/
def c4Thought : Thought :=
  { thought_id := 1, parent_id := none, imported_at := 0, scribe_id := 2,
    project_id := 3, content := "a thought" }

/-- A project whose id is absent from the store it is updated in (C4). -/
def c4Project : Project :=
  { project_id := 4, universe_id := 0, created_at := 0, project_name := "Ghost",
    slug := "ghost", locked := false }

/-- A stored note to be scratched twice (C3). -/
def c3Note : Note :=
  { note_id := 5, imported_at := 0, stylo_id := 2, project_id := 3, content := "scratch me" }

/-- A service state holding exactly the note `c3Note` (C3). -/
def c3SvcState : ServiceState :=
  { noteBook := { notes := [(5, c3Note)] }
    projectBook := ProjectBookState.empty
    thoughtBook := ThoughtBookState.empty
    events := [] }

/-- The project that `Project::create` builds from a name whose
transliteration holds no ASCII alphanumeric: its slug is empty (C10). -/
def emptySlugProject (genId now universe_id : Nat) (name : String) : Project :=
  { project_id := genId, universe_id := universe_id, created_at := now,
    project_name := ⟨trimChars name.data⟩, slug := "", locked := false }

/-- A stored project, target of the witness lookups (C8, C9). -/
def wProject : Project :=
  { project_id := 1, universe_id := 2, created_at := 0,
    project_name := "Test Project", slug := "test-project", locked := false }

/-- A project book holding exactly `wProject` (C8, C9). -/
def wProjectBook : ProjectBookState :=
  { projects := [(1, wProject)], slugs := [("test-project", 1)] }

/-- A service state whose project book holds exactly `wProject` (C8, C9). -/
def wSvcState : ServiceState :=
  { noteBook := NoteBookState.empty
    projectBook := wProjectBook
    thoughtBook := ThoughtBookState.empty
    events := [] }

/-! ## Structural lemmas on the slug pipeline -/

theorem splitDash_shape : ∀ l : List Char, ∃ p ps, splitDash l = p :: ps
  | [] => ⟨[], [], rfl⟩
  | c :: cs => by
    obtain ⟨p, ps, h⟩ := splitDash_shape cs
    by_cases hc : c = '-'
    · exact ⟨[], splitDash cs, by simp [splitDash, hc]⟩
    · exact ⟨c :: p, ps, by simp [splitDash, hc, h]⟩

theorem splitDash_ne_nil (l : List Char) : splitDash l ≠ [] := by
  obtain ⟨p, ps, h⟩ := splitDash_shape l
  simp [h]

theorem splitDash_cons_dash (cs : List Char) : splitDash ('-' :: cs) = [] :: splitDash cs := by
  simp [splitDash]

theorem splitDash_cons_ne (c : Char) (cs : List Char) (hc : c ≠ '-') :
    ∃ p ps, splitDash cs = p :: ps ∧ splitDash (c :: cs) = (c :: p) :: ps := by
  obtain ⟨p, ps, h⟩ := splitDash_shape cs
  exact ⟨p, ps, h, by simp [splitDash, hc, h]⟩

theorem joinDash_cons_cons (p q : List Char) (qs : List (List Char)) :
    joinDash (p :: q :: qs) = p ++ '-' :: joinDash (q :: qs) := rfl

theorem joinDash_cons_head (c : Char) (p : List Char) (ps : List (List Char)) :
    joinDash ((c :: p) :: ps) = c :: joinDash (p :: ps) := by
  cases ps <;> simp [joinDash]

theorem joinDash_splitDash : ∀ l : List Char, joinDash (splitDash l) = l
  | [] => rfl
  | c :: cs => by
    by_cases hc : c = '-'
    · subst hc
      obtain ⟨p, ps, h⟩ := splitDash_shape cs
      rw [splitDash_cons_dash, h, joinDash_cons_cons, ← h, joinDash_splitDash cs]
      rfl
    · obtain ⟨p, ps, h, h2⟩ := splitDash_cons_ne c cs hc
      rw [h2, joinDash_cons_head, ← h, joinDash_splitDash cs]

theorem mem_splitDash : ∀ (l p : List Char), p ∈ splitDash l → ∀ c ∈ p, c ∈ l ∧ c ≠ '-'
  | [], p, hp, c, hc => by
    simp [splitDash] at hp
    subst hp
    simp at hc
  | a :: cs, p, hp, c, hc => by
    by_cases ha : a = '-'
    · subst ha
      rw [splitDash_cons_dash] at hp
      rcases List.mem_cons.mp hp with h | h
      · subst h; simp at hc
      · have := mem_splitDash cs p h c hc
        exact ⟨List.mem_cons_of_mem _ this.1, this.2⟩
    · obtain ⟨q, qs, hq, h2⟩ := splitDash_cons_ne a cs ha
      rw [h2] at hp
      rcases List.mem_cons.mp hp with h | h
      · subst h
        rcases List.mem_cons.mp hc with h | h
        · subst h; exact ⟨List.mem_cons_self _ _, ha⟩
        · have := mem_splitDash cs q (by rw [hq]; exact List.mem_cons_self _ _) c h
          exact ⟨List.mem_cons_of_mem _ this.1, this.2⟩
      · have := mem_splitDash cs p (by rw [hq]; exact List.mem_cons_of_mem _ h) c hc
        exact ⟨List.mem_cons_of_mem _ this.1, this.2⟩

theorem splitDash_dashFree : ∀ p : List Char, (∀ c ∈ p, c ≠ '-') → splitDash p = [p]
  | [], _ => rfl
  | c :: cs, h => by
    have hc : c ≠ '-' := h c (List.mem_cons_self _ _)
    have ih := splitDash_dashFree cs (fun d hd => h d (List.mem_cons_of_mem _ hd))
    simp [splitDash, hc, ih]

theorem splitDash_append_dash : ∀ (p l : List Char), (∀ c ∈ p, c ≠ '-') →
    splitDash (p ++ '-' :: l) = p :: splitDash l
  | [], l, _ => by simp [splitDash]
  | c :: cs, l, h => by
    have hc : c ≠ '-' := h c (List.mem_cons_self _ _)
    have ih := splitDash_append_dash cs l (fun d hd => h d (List.mem_cons_of_mem _ hd))
    simp [splitDash, hc, ih]

theorem splitDash_joinDash : ∀ pieces : List (List Char), pieces ≠ [] →
    (∀ p ∈ pieces, ∀ c ∈ p, c ≠ '-') → splitDash (joinDash pieces) = pieces
  | [], h, _ => absurd rfl h
  | [p], _, hall => by
    show splitDash p = [p]
    exact splitDash_dashFree p (hall p (List.mem_cons_self _ _))
  | p :: q :: qs, _, hall => by
    have ih := splitDash_joinDash (q :: qs) (by simp)
      (fun r hr => hall r (List.mem_cons_of_mem _ hr))
    rw [joinDash_cons_cons, splitDash_append_dash p _ (hall p (List.mem_cons_self _ _)), ih]

theorem dropWhile_of_neg {α : Type} (p : α → Bool) (l : List α)
    (h : ∀ a ∈ l, p a = false) : l.dropWhile p = l := by
  cases l with
  | nil => rfl
  | cons a as => simp [List.dropWhile_cons, h a (List.mem_cons_self _ _)]

theorem trimChars_of_no_ws (l : List Char) (h : ∀ c ∈ l, isRustWhitespace c = false) :
    trimChars l = l := by
  unfold trimChars
  rw [dropWhile_of_neg _ _ h,
    dropWhile_of_neg _ _ (fun c hc => h c (List.mem_reverse.mp hc)),
    List.reverse_reverse]

theorem uniChars_of_id (uni : Char → String) : ∀ l : List Char,
    (∀ c ∈ l, uni c = String.singleton c) → uniChars uni l = l
  | [], _ => rfl
  | c :: cs, h => by
    have ih := uniChars_of_id uni cs (fun d hd => h d (List.mem_cons_of_mem _ hd))
    show ((uni c).data) ++ uniChars uni cs = c :: cs
    rw [h c (List.mem_cons_self _ _), ih]
    rfl

/-! ## Character-class lemmas -/

theorem slugChar_not_ws (c : Char) (h : isLowerAlnum c = true ∨ c = '-') :
    isRustWhitespace c = false := by
  rcases h with h | h
  · simp only [isLowerAlnum, Bool.or_eq_true, Bool.and_eq_true, decide_eq_true_eq] at h
    simp only [isRustWhitespace, Bool.or_eq_false_iff, beq_eq_false_iff_ne, ne_eq]
    omega
  · subst h; decide

theorem slugChar_toLower_fixed (c : Char) (h : isLowerAlnum c = true ∨ c = '-') :
    Char.toLower c = c := by
  have hn : ¬(c.toNat ≥ 65 ∧ c.toNat ≤ 90) := by
    rcases h with h | h
    · simp only [isLowerAlnum, Bool.or_eq_true, Bool.and_eq_true, decide_eq_true_eq] at h
      omega
    · subst h; decide
  show (if c.toNat ≥ 65 ∧ c.toNat ≤ 90 then Char.ofNat (c.toNat + 32) else c) = c
  rw [if_neg hn]

theorem slugChar_dashify_fixed (c : Char) (h : isLowerAlnum c = true ∨ c = '-') :
    dashifyChar c = c := by
  rcases h with h | h
  · have ha : isAsciiAlphanumeric c = true := by
      simp only [isLowerAlnum, Bool.or_eq_true, Bool.and_eq_true, decide_eq_true_eq] at h
      simp only [isAsciiAlphanumeric, Bool.or_eq_true, Bool.and_eq_true, decide_eq_true_eq]
      omega
    simp [dashifyChar, ha]
  · subst h; decide

theorem dashify_toLower_class (c : Char) :
    isLowerAlnum (dashifyChar (Char.toLower c)) = true ∨ dashifyChar (Char.toLower c) = '-' := by
  by_cases hup : c.toNat ≥ 65 ∧ c.toNat ≤ 90
  · have h1 : (Char.toLower c).toNat = c.toNat + 32 := by
      show (if c.toNat ≥ 65 ∧ c.toNat ≤ 90 then Char.ofNat (c.toNat + 32) else c).toNat
        = c.toNat + 32
      rw [if_pos hup]
      have hv : (c.toNat + 32).isValidChar := Or.inl (by omega)
      rw [Char.ofNat, dif_pos hv]
      rfl
    left
    have h2 : isAsciiAlphanumeric (Char.toLower c) = true := by
      simp only [isAsciiAlphanumeric, Bool.or_eq_true, Bool.and_eq_true, decide_eq_true_eq, h1]
      omega
    simp only [dashifyChar, h2, if_true, isLowerAlnum, Bool.or_eq_true, Bool.and_eq_true,
      decide_eq_true_eq, h1]
    omega
  · have h1 : Char.toLower c = c := by
      show (if c.toNat ≥ 65 ∧ c.toNat ≤ 90 then Char.ofNat (c.toNat + 32) else c) = c
      rw [if_neg hup]
    rw [h1]
    by_cases ha : isAsciiAlphanumeric c = true
    · left
      have h3 : dashifyChar c = c := by simp [dashifyChar, ha]
      rw [h3]
      simp only [isAsciiAlphanumeric, Bool.or_eq_true, Bool.and_eq_true, decide_eq_true_eq] at ha
      simp only [isLowerAlnum, Bool.or_eq_true, Bool.and_eq_true, decide_eq_true_eq]
      omega
    · right
      simp [dashifyChar, ha]

/-! ## Lemmas on `noDoubleDash` and `joinDash` -/

theorem ndd_cons (c : Char) (t : List Char) (hc : c ≠ '-') (ht : noDoubleDash t = true) :
    noDoubleDash (c :: t) = true := by
  cases t with
  | nil => rfl
  | cons b bs =>
    simp only [noDoubleDash, Bool.and_eq_true, Bool.not_eq_true', Bool.and_eq_false_iff,
      beq_eq_false_iff_ne, ne_eq] at ht ⊢
    exact ⟨Or.inl hc, ht⟩

theorem ndd_dash_cons (t : List Char) (hh : t.head? ≠ some '-') (ht : noDoubleDash t = true) :
    noDoubleDash ('-' :: t) = true := by
  cases t with
  | nil => rfl
  | cons b bs =>
    have hb : b ≠ '-' := by simpa using hh
    simp only [noDoubleDash, Bool.and_eq_true, Bool.not_eq_true', Bool.and_eq_false_iff,
      beq_eq_false_iff_ne, ne_eq] at ht ⊢
    exact ⟨Or.inr hb, ht⟩

theorem ndd_append (p t : List Char) (hp : ∀ c ∈ p, c ≠ '-') (ht : noDoubleDash t = true) :
    noDoubleDash (p ++ t) = true := by
  induction p with
  | nil => simpa using ht
  | cons c cs ih =>
    exact ndd_cons c (cs ++ t) (hp c (List.mem_cons_self _ _))
      (ih (fun d hd => hp d (List.mem_cons_of_mem _ hd)))

theorem joinDash_ne_nil (p : List Char) (ps : List (List Char)) (hp : p ≠ []) :
    joinDash (p :: ps) ≠ [] := by
  cases ps with
  | nil => simpa [joinDash] using hp
  | cons q qs =>
    rw [joinDash_cons_cons]
    simp

theorem joinDash_head? (p : List Char) (ps : List (List Char)) (hp : p ≠ []) :
    (joinDash (p :: ps)).head? = p.head? := by
  cases ps with
  | nil => rfl
  | cons q qs =>
    rw [joinDash_cons_cons, List.head?_append]
    cases p with
    | nil => exact absurd rfl hp
    | cons a as => rfl

theorem mem_joinDash : ∀ (pieces : List (List Char)) (c : Char), c ∈ joinDash pieces →
    c = '-' ∨ ∃ p ∈ pieces, c ∈ p
  | [], c, hc => by simp [joinDash] at hc
  | [p], c, hc => Or.inr ⟨p, List.mem_cons_self _ _, hc⟩
  | p :: q :: qs, c, hc => by
    rw [joinDash_cons_cons] at hc
    rcases List.mem_append.mp hc with h | h
    · exact Or.inr ⟨p, List.mem_cons_self _ _, h⟩
    · rcases List.mem_cons.mp h with h | h
      · exact Or.inl h
      · rcases mem_joinDash (q :: qs) c h with h | ⟨r, hr, hcr⟩
        · exact Or.inl h
        · exact Or.inr ⟨r, List.mem_cons_of_mem _ hr, hcr⟩

theorem joinDash_ok : ∀ pieces : List (List Char),
    (∀ p ∈ pieces, p ≠ [] ∧ ∀ c ∈ p, c ≠ '-') →
    noDoubleDash (joinDash pieces) = true ∧
    (joinDash pieces).head? ≠ some '-' ∧
    (joinDash pieces).getLast? ≠ some '-'
  | [], _ => ⟨rfl, by simp [joinDash], by simp [joinDash]⟩
  | [p], h => by
    obtain ⟨hp, hpc⟩ := h p (List.mem_cons_self _ _)
    refine ⟨?_, ?_, ?_⟩
    · have := ndd_append p [] hpc rfl
      simpa using this
    · show p.head? ≠ some '-'
      cases p with
      | nil => simp
      | cons a as =>
        simp only [List.head?_cons, ne_eq, Option.some.injEq]
        exact hpc a (List.mem_cons_self _ _)
    · show p.getLast? ≠ some '-'
      rw [List.getLast?_eq_getLast p hp]
      simp only [ne_eq, Option.some.injEq]
      exact hpc _ (List.getLast_mem hp)
  | p :: q :: qs, h => by
    obtain ⟨hndd, hhead, hlast⟩ :=
      joinDash_ok (q :: qs) (fun r hr => h r (List.mem_cons_of_mem _ hr))
    obtain ⟨hp, hpc⟩ := h p (List.mem_cons_self _ _)
    have hq : q ≠ [] := (h q (by simp)).1
    have hJne : joinDash (q :: qs) ≠ [] := joinDash_ne_nil q qs hq
    refine ⟨?_, ?_, ?_⟩
    · rw [joinDash_cons_cons]
      exact ndd_append p _ hpc (ndd_dash_cons _ hhead hndd)
    · rw [joinDash_head? p _ hp]
      cases p with
      | nil => exact absurd rfl hp
      | cons a as =>
        simp only [List.head?_cons, ne_eq, Option.some.injEq]
        exact hpc a (List.mem_cons_self _ _)
    · rw [joinDash_cons_cons, List.getLast?_append]
      have hstep : ('-' :: joinDash (q :: qs)).getLast? = (joinDash (q :: qs)).getLast? := by
        cases hJ : joinDash (q :: qs) with
        | nil => exact absurd hJ hJne
        | cons x xs => rw [List.getLast?_cons_cons]
      rw [hstep]
      obtain ⟨x, hx⟩ := Option.isSome_iff_exists.mp (List.getLast?_isSome.mpr hJne)
      rw [hx]
      rw [hx] at hlast
      simpa using hlast

/-! ## All fragments of a dash-normalized string are nonempty -/

theorem splitDash_head_ne_nil (c : Char) (cs : List Char) (hc : c ≠ '-') :
    ∀ p ∈ [(splitDash (c :: cs)).head (splitDash_ne_nil _)], p ≠ [] := by
  obtain ⟨q, qs, hq, h2⟩ := splitDash_cons_ne c cs hc
  intro p hp
  simp only [List.mem_singleton] at hp
  subst hp
  simp [h2]

theorem splitDash_tail_ne_nil : ∀ l : List Char, noDoubleDash l = true →
    l.getLast? ≠ some '-' → ∀ p ∈ (splitDash l).tail, p ≠ []
  | [], _, _ => by simp [splitDash]
  | [a], _, hlast => by
    have ha : a ≠ '-' := by simpa using hlast
    obtain ⟨q, qs, hq, h2⟩ := splitDash_cons_ne a [] ha
    simp [splitDash] at hq
    obtain ⟨hq1, hq2⟩ := hq
    subst hq1 hq2
    simp [h2]
  | a :: b :: rest, hndd, hlast => by
    have hndd2 : noDoubleDash (b :: rest) = true := by
      simp only [noDoubleDash, Bool.and_eq_true] at hndd
      exact hndd.2
    have hpair : ¬(a = '-' ∧ b = '-') := by
      simp only [noDoubleDash, Bool.and_eq_true, Bool.not_eq_true', Bool.and_eq_false_iff,
        beq_eq_false_iff_ne, ne_eq] at hndd
      rcases hndd.1 with h | h
      · exact fun hc => h hc.1
      · exact fun hc => h hc.2
    have hlast2 : (b :: rest).getLast? ≠ some '-' := by
      rwa [List.getLast?_cons_cons] at hlast
    have ih := splitDash_tail_ne_nil (b :: rest) hndd2 hlast2
    by_cases ha : a = '-'
    · subst ha
      have hb : b ≠ '-' := fun hc => hpair ⟨rfl, hc⟩
      rw [splitDash_cons_dash]
      intro p hp
      simp only [List.tail_cons] at hp
      obtain ⟨q, qs, hq, h2⟩ := splitDash_cons_ne b rest hb
      rw [h2] at hp
      rcases List.mem_cons.mp hp with h | h
      · subst h; simp
      · exact ih p (by rw [h2]; simpa using h)
    · obtain ⟨q, qs, hq, h2⟩ := splitDash_cons_ne a (b :: rest) ha
      rw [h2]
      intro p hp
      simp only [List.tail_cons] at hp
      exact ih p (by rw [hq]; simpa using hp)

theorem splitDash_all_ne_nil (l : List Char) (hhead : l.head? ≠ some '-')
    (hndd : noDoubleDash l = true) (hlast : l.getLast? ≠ some '-') (hne : l ≠ []) :
    ∀ p ∈ splitDash l, p ≠ [] := by
  cases l with
  | nil => exact absurd rfl hne
  | cons c cs =>
    have hc : c ≠ '-' := by simpa using hhead
    obtain ⟨q, qs, hq, h2⟩ := splitDash_cons_ne c cs hc
    intro p hp
    rw [h2] at hp
    rcases List.mem_cons.mp hp with h | h
    · subst h; simp
    · exact splitDash_tail_ne_nil (c :: cs) hndd hlast p (by rw [h2]; simpa using h)

/-! ## The shape of `generate_slug` output, and its fixed points -/

theorem generate_slug_def (uni : Char → String) (name : String) :
    Project.generate_slug uni name =
      ⟨joinDash ((splitDash (((trimChars (uniChars uni name.data)).map Char.toLower).map
        dashifyChar)).filter (fun p => !p.isEmpty))⟩ := rfl

/-- Every slug consists of lowercase ASCII alphanumerics and dashes, has no
two consecutive dashes, and neither starts nor ends with a dash. -/
theorem generate_slug_spec (uni : Char → String) (name : String) :
    (∀ c ∈ (Project.generate_slug uni name).data, isLowerAlnum c = true ∨ c = '-') ∧
    noDoubleDash (Project.generate_slug uni name).data = true ∧
    (Project.generate_slug uni name).data.head? ≠ some '-' ∧
    (Project.generate_slug uni name).data.getLast? ≠ some '-' := by
  rw [generate_slug_def]
  set s : List Char :=
    ((trimChars (uniChars uni name.data)).map Char.toLower).map dashifyChar with hs
  set pieces : List (List Char) := (splitDash s).filter (fun p => !p.isEmpty) with hpieces
  have hsChar : ∀ c ∈ s, isLowerAlnum c = true ∨ c = '-' := by
    intro c hc
    rw [hs] at hc
    rcases List.mem_map.mp hc with ⟨x, hx, hxc⟩
    rcases List.mem_map.mp hx with ⟨y, _, hyx⟩
    subst hxc
    subst hyx
    exact dashify_toLower_class y
  have hpieceFacts : ∀ p ∈ pieces, p ≠ [] ∧ ∀ c ∈ p, c ≠ '-' := by
    intro p hp
    rw [hpieces] at hp
    have hmem : p ∈ splitDash s := List.mem_of_mem_filter hp
    have hval := List.of_mem_filter hp
    refine ⟨?_, ?_⟩
    · intro h
      subst h
      simp at hval
    · intro c hc
      exact (mem_splitDash s p hmem c hc).2
  obtain ⟨h1, h2, h3⟩ := joinDash_ok pieces hpieceFacts
  refine ⟨?_, h1, h2, h3⟩
  intro c hc
  rcases mem_joinDash pieces c hc with h | ⟨p, hp, hcp⟩
  · exact Or.inr h
  · have hfacts := hpieceFacts p hp
    have hmem : p ∈ splitDash s := by
      rw [hpieces] at hp
      exact List.mem_of_mem_filter hp
    have := mem_splitDash s p hmem c hcp
    rcases hsChar c this.1 with h | h
    · exact Or.inl h
    · exact absurd h this.2

/-- A string made of lowercase ASCII alphanumerics and single, interior
dashes is a fixed point of `generate_slug`, for any transliteration that is
the identity on that alphabet (as `unidecode` is). -/
theorem generate_slug_fixed (uni : Char → String)
    (huni : ∀ c, isLowerAlnum c = true ∨ c = '-' → uni c = String.singleton c)
    (r : String) (hchars : ∀ c ∈ r.data, isLowerAlnum c = true ∨ c = '-')
    (hndd : noDoubleDash r.data = true) (hhead : r.data.head? ≠ some '-')
    (hlast : r.data.getLast? ≠ some '-') :
    Project.generate_slug uni r = r := by
  have h1 : uniChars uni r.data = r.data :=
    uniChars_of_id uni r.data (fun c hc => huni c (hchars c hc))
  have h2 : trimChars r.data = r.data :=
    trimChars_of_no_ws r.data (fun c hc => slugChar_not_ws c (hchars c hc))
  have h3 : r.data.map Char.toLower = r.data := by
    have := List.map_congr_left (fun c hc => slugChar_toLower_fixed c (hchars c hc))
    simpa using this
  have h4 : r.data.map dashifyChar = r.data := by
    have := List.map_congr_left (fun c hc => slugChar_dashify_fixed c (hchars c hc))
    simpa using this
  rw [generate_slug_def, h1, h2, h3, h4]
  cases hr : r.data with
  | nil =>
    have : r = ⟨[]⟩ := by cases r; simp_all
    rw [this]
    rfl
  | cons a as =>
    rw [← hr]
    have hne : r.data ≠ [] := by rw [hr]; simp
    have hfilter : (splitDash r.data).filter (fun p => !p.isEmpty) = splitDash r.data := by
      rw [List.filter_eq_self]
      intro p hp
      have := splitDash_all_ne_nil r.data hhead hndd hlast hne p hp
      simpa [List.isEmpty_iff] using this
    rw [hfilter, joinDash_splitDash]

/-- `generate_slug` is idempotent, for any transliteration that is the
identity on the slug alphabet (as `unidecode` is). -/
theorem generate_slug_idem (uni : Char → String)
    (huni : ∀ c, isLowerAlnum c = true ∨ c = '-' → uni c = String.singleton c)
    (name : String) :
    Project.generate_slug uni (Project.generate_slug uni name) =
      Project.generate_slug uni name := by
  obtain ⟨h1, h2, h3, h4⟩ := generate_slug_spec uni name
  exact generate_slug_fixed uni huni _ h1 h2 h3 h4

/-! ## Further helper lemmas -/

theorem alLookup_alErase_self {κ α : Type} [BEq κ] (k : κ) :
    ∀ l : List (κ × α), alLookup k (alErase k l) = none
  | [] => rfl
  | (k2, v) :: rest => by
    have ih := alLookup_alErase_self (α := α) k rest
    by_cases h : (k2 == k) = true
    · simpa [alErase, List.filter_cons, h] using ih
    · simp only [Bool.not_eq_true] at h
      simp only [alErase, List.filter_cons, h, Bool.not_false, if_true] at ih ⊢
      simpa [alLookup, h] using ih

/-- When no character of a list is anything but a dash, joining its
nonempty dash-fragments gives the empty list. -/
theorem joinDash_filter_of_all_dash (l : List Char) (h : ∀ c ∈ l, c = '-') :
    joinDash ((splitDash l).filter (fun p => !p.isEmpty)) = [] := by
  have hnil : (splitDash l).filter (fun p => !p.isEmpty) = [] := by
    rw [List.filter_eq_nil_iff]
    intro p hp
    cases p with
    | nil => simp
    | cons c cs =>
      have hmem := mem_splitDash l (c :: cs) hp c (List.mem_cons_self _ _)
      exact absurd (h c hmem.1) hmem.2
  rw [hnil]
  rfl

/-- A name none of whose transliterated, lowercased characters is an ASCII
alphanumeric produces the empty slug. -/
theorem generate_slug_empty_of_no_alnum (uni : Char → String) (name : String)
    (hnone : ∀ c ∈ (trimChars (uniChars uni name.data)).map Char.toLower,
      isAsciiAlphanumeric c = false) :
    Project.generate_slug uni name = "" := by
  rw [generate_slug_def]
  have hdash : ∀ c ∈ ((trimChars (uniChars uni name.data)).map Char.toLower).map dashifyChar,
      c = '-' := by
    intro c hc
    rcases List.mem_map.mp hc with ⟨x, hx, hxc⟩
    subst hxc
    simp [dashifyChar, hnone x hx]
  rw [joinDash_filter_of_all_dash _ hdash]

/-! ## The claims -/

/-- C5: slug generation is idempotent — for every name,
`generate_slug (generate_slug name) = generate_slug name`, for any
transliteration `uni` that (like `unidecode`) is the identity on the slug
alphabet `[a-z0-9-]`. -/
theorem claim_C5_slug_idempotent (uni : Char → String)
    (huni : ∀ c, isLowerAlnum c = true ∨ c = '-' → uni c = String.singleton c)
    (name : String) :
    Project.generate_slug uni (Project.generate_slug uni name) =
      Project.generate_slug uni name :=
  generate_slug_idem uni huni name

/-- Witness for C5: the idempotence theorem applied at the identity
transliteration and the name "Test Project 123!@#". -/
theorem claim_C5_witness :
    (∀ c : Char, isLowerAlnum c = true ∨ c = '-' →
      String.singleton c = String.singleton c) ∧
    Project.generate_slug String.singleton
        (Project.generate_slug String.singleton "Test Project 123!@#") =
      Project.generate_slug String.singleton "Test Project 123!@#" :=
  ⟨fun _ _ => rfl,
    claim_C5_slug_idempotent String.singleton (fun _ _ => rfl) "Test Project 123!@#"⟩

/-- C6: for every input name (and any transliteration), the generated slug
contains only lowercase ASCII alphanumerics and hyphens, never two
consecutive hyphens, and neither starts nor ends with a hyphen. -/
theorem claim_C6_slug_charset (uni : Char → String) (name : String) :
    (∀ c ∈ (Project.generate_slug uni name).data, isLowerAlnum c = true ∨ c = '-') ∧
    noDoubleDash (Project.generate_slug uni name).data = true ∧
    (Project.generate_slug uni name).data.head? ≠ some '-' ∧
    (Project.generate_slug uni name).data.getLast? ≠ some '-' :=
  generate_slug_spec uni name

/-- Witness for C6: the charset theorem applied at `uniAscii` and the name
"  Test!!!Project@#$%Test" (whose slug is "test-project-test"). -/
theorem claim_C6_witness :
    Project.generate_slug uniAscii "  Test!!!Project@#$%Test" = "test-project-test" ∧
    noDoubleDash (Project.generate_slug uniAscii "  Test!!!Project@#$%Test").data = true ∧
    (Project.generate_slug uniAscii "  Test!!!Project@#$%Test").data.head? ≠ some '-' :=
  ⟨by decide, (claim_C6_slug_charset uniAscii "  Test!!!Project@#$%Test").2.1,
    (claim_C6_slug_charset uniAscii "  Test!!!Project@#$%Test").2.2.1⟩

/-- C7: `create_note` on a `project_slug` that resolves to no stored
project fails with `ProjectNotFound`, leaves the note book exactly as it
was, and publishes no event (the whole service state is unchanged). -/
theorem claim_C7_create_note_unresolved_slug (genId now : Nat)
    (command : CreateNoteCommand) (st : ServiceState)
    (h : InMemoryProjectBook.get_by_slug command.project_slug st.projectBook = none) :
    ThoughtService.create_note genId now command st =
      (.error (.ProjectNotFound command.project_slug), st) ∧
    (ThoughtService.create_note genId now command st).2.noteBook = st.noteBook ∧
    (ThoughtService.create_note genId now command st).2.events = st.events := by
  have heq : ThoughtService.create_note genId now command st =
      (.error (.ProjectNotFound command.project_slug), st) := by
    unfold ThoughtService.create_note
    rw [h]
  exact ⟨heq, by rw [heq], by rw [heq]⟩

/-- Witness for C7: the theorem applied to the empty service state and the
slug "test-project". -/
theorem claim_C7_witness :
    ThoughtService.create_note 1 0 ⟨0, 2, "test-project", "a note"⟩ ServiceState.empty =
      (.error (.ProjectNotFound "test-project"), ServiceState.empty) :=
  (claim_C7_create_note_unresolved_slug 1 0 ⟨0, 2, "test-project", "a note"⟩
    ServiceState.empty (by decide)).1

/-- C8: `create_thought` on a command whose project slug resolves but whose
`parent_id` is set to an id with no stored thought fails with
`InvalidParentReference`, leaves the thought book exactly as it was, and
publishes no event (the whole service state is unchanged). -/
theorem claim_C8_create_thought_dangling_parent (genId now parent_id : Nat)
    (command : CreateThoughtCommand) (st : ServiceState) (proj : Project)
    (h1 : InMemoryProjectBook.get_by_slug command.project_slug st.projectBook = some proj)
    (h2 : command.parent_id = some parent_id)
    (h3 : InMemoryThoughtBook.get parent_id st.thoughtBook = none) :
    ThoughtService.create_thought genId now command st =
      (.error (.InvalidParentReference parent_id), st) ∧
    (ThoughtService.create_thought genId now command st).2.thoughtBook = st.thoughtBook ∧
    (ThoughtService.create_thought genId now command st).2.events = st.events := by
  have heq : ThoughtService.create_thought genId now command st =
      (.error (.InvalidParentReference parent_id), st) := by
    unfold ThoughtService.create_thought
    simp [h1, h2, h3]
  exact ⟨heq, by rw [heq], by rw [heq]⟩

/-- Witness for C8: the theorem applied to a state holding one project with
slug "test-project" and no thought, and a command referencing parent 7. -/
theorem claim_C8_witness :
    ThoughtService.create_thought 1 0 ⟨0, some 7, 3, "test-project", "child"⟩ wSvcState =
      (.error (.InvalidParentReference 7), wSvcState) :=
  (claim_C8_create_thought_dangling_parent 1 0 7 ⟨0, some 7, 3, "test-project", "child"⟩
    wSvcState wProject (by decide) rfl (by decide)).1

/-- Unfolding equation of `ThoughtService.create_project` with the `let`
for the derived slug expanded. -/
theorem create_project_eq (uni : Char → String) (genId now : Nat)
    (command : CreateProjectCommand) (st : ServiceState) :
    ThoughtService.create_project uni genId now command st =
      match InMemoryProjectBook.get_by_slug
          (Project.generate_slug uni (Project.generate_slug uni command.project_name))
          st.projectBook with
      | some _ =>
        (.error (.ProjectAlreadyExists (Project.generate_slug uni command.project_name)), st)
      | none =>
        match InMemoryProjectBook.create uni genId now command st.projectBook with
        | (.error e, pb) => (.error e, { st with projectBook := pb })
        | (.ok project, pb) =>
          (.ok project,
            { st with
              projectBook := pb
              events := st.events ++
                [{ model := .Project project.project_id project.universe_id .Created,
                   timestamp := now }] }) := rfl

/-- C9: when the derived slug already resolves through `get_by_slug`,
`create_project` fails with `ProjectAlreadyExists` and the state — project
book and event list — is untouched (the repository `create` is never
reached); and whenever `create_project` succeeds, exactly one
`Project/Created` event is appended to the channel. -/
theorem claim_C9_create_project_events (uni : Char → String) (genId now : Nat)
    (command : CreateProjectCommand) (st : ServiceState)
    (huni : ∀ c, isLowerAlnum c = true ∨ c = '-' → uni c = String.singleton c) :
    (∀ p, InMemoryProjectBook.get_by_slug (Project.generate_slug uni command.project_name)
        st.projectBook = some p →
      ThoughtService.create_project uni genId now command st =
        (.error (.ProjectAlreadyExists (Project.generate_slug uni command.project_name)), st)) ∧
    (∀ p st2, ThoughtService.create_project uni genId now command st = (.ok p, st2) →
      st2.events = st.events ++
        [{ model := .Project p.project_id p.universe_id .Created, timestamp := now }]) := by
  have hidem := generate_slug_idem uni huni command.project_name
  constructor
  · intro p hp
    rw [create_project_eq, hidem, hp]
  · intro p st2 hok
    rw [create_project_eq, hidem] at hok
    cases hbs : InMemoryProjectBook.get_by_slug (Project.generate_slug uni command.project_name)
        st.projectBook with
    | some q =>
      rw [hbs] at hok
      simp at hok
    | none =>
      rw [hbs] at hok
      rcases hcr : InMemoryProjectBook.create uni genId now command st.projectBook with ⟨res, pb⟩
      rw [hcr] at hok
      cases res with
      | error e => simp at hok
      | ok project =>
        simp only [Except.ok.injEq, Prod.mk.injEq] at hok
        obtain ⟨hpe, hse⟩ := hok
        subst hpe
        subst hse
        rfl

/-- Witness for C9: the already-exists branch at a state holding
"test-project", and the event appended by a successful creation from the
empty state. -/
theorem claim_C9_witness :
    (ThoughtService.create_project String.singleton 1 0 ⟨"Test Project", 2⟩ wSvcState =
      (.error (.ProjectAlreadyExists "test-project"), wSvcState)) ∧
    ((ThoughtService.create_project String.singleton 1 0 ⟨"Test Project", 5⟩
        ServiceState.empty).2).events =
      [{ model := .Project 1 5 .Created, timestamp := 0 }] := by
  constructor
  · have h := (claim_C9_create_project_events String.singleton 1 0 ⟨"Test Project", 2⟩ wSvcState
      (fun _ _ => rfl)).1 wProject (by decide)
    rwa [show Project.generate_slug String.singleton "Test Project" = "test-project" from
      by decide] at h
  · have hok : ThoughtService.create_project String.singleton 1 0 ⟨"Test Project", 5⟩
        ServiceState.empty =
        (.ok { project_id := 1, universe_id := 5, created_at := 0,
               project_name := "Test Project", slug := "test-project", locked := false },
          (ThoughtService.create_project String.singleton 1 0 ⟨"Test Project", 5⟩
            ServiceState.empty).2) :=
      Prod.ext (by decide) rfl
    have h := (claim_C9_create_project_events String.singleton 1 0 ⟨"Test Project", 5⟩
      ServiceState.empty (fun _ _ => rfl)).2 _ _ hok
    simpa using h

/-- C1: the slug-uniqueness invariant is broken by a sequential trace —
create "a", create "b", a failed update of project 1 to slug "b" (which
strips the binding of "a" from the slugs map before rejecting), then a
second create of "a": afterwards projects 1 and 3 are both stored with the
slug "a". -/
theorem claim_C1_sequential_trace_breaks_uniqueness :
    c1Trace1.1 = .ok ⟨1, 0, 0, "a", "a", false⟩ ∧
    c1Trace2.1 = .ok ⟨2, 0, 0, "b", "b", false⟩ ∧
    c1Trace3.1 = .error (.DuplicateSlug "b") ∧
    c1Trace4.1 = .ok ⟨3, 0, 0, "a", "a", false⟩ ∧
    (InMemoryProjectBook.get 1 c1Trace4.2).map Project.slug = some "a" ∧
    (InMemoryProjectBook.get 3 c1Trace4.2).map Project.slug = some "a" := by
  decide

/-- C2: the duplicate-slug check and the insertion are two separate
critical sections, with the read guard dropped in between; under the
schedule check A, check B, insert A, insert B both racing creates with the
same name pass their check (neither observes `DuplicateSlug`) and both
projects end up stored under the slug "test-project". -/
theorem claim_C2_check_insert_interleaving :
    InMemoryProjectBook.createCheck String.singleton 1 0 ⟨"Test Project", 0⟩
      ProjectBookState.empty = .ok c2ProjA ∧
    InMemoryProjectBook.createCheck String.singleton 2 0 ⟨"Test Project", 0⟩
      ProjectBookState.empty = .ok c2ProjB ∧
    (InMemoryProjectBook.get 1 c2RaceState).map Project.slug = some "test-project" ∧
    (InMemoryProjectBook.get 2 c2RaceState).map Project.slug = some "test-project" := by
  decide

/-- C4: `sync`/`update` on an entity whose id is not stored does not fail
with NotFound — on all three repositories it succeeds and inserts the
entity (an undocumented upsert, against the trait documentation of
`NoteBook::sync` and `ThoughtBook::sync`). -/
theorem claim_C4_sync_upserts :
    InMemoryNoteBook.sync c4Note NoteBookState.empty =
      (.ok c4Note, { notes := [(1, c4Note)] }) ∧
    InMemoryThoughtBook.sync c4Thought ThoughtBookState.empty =
      (.ok c4Thought, { thoughts := [(1, c4Thought)] }) ∧
    InMemoryProjectBook.update c4Project ProjectBookState.empty =
      (.ok c4Project, { projects := [(4, c4Project)], slugs := [("ghost", 4)] }) := by
  decide

/-- Counterexample to C3 as stated: deleting an id that never existed is an
error (`NoteNotFound` / `ProjectNotFound`), not an absent value. -/
theorem claim_C3_counterexample :
    (InMemoryNoteBook.delete 0 NoteBookState.empty).1 = .error (.NoteNotFound 0) ∧
    (InMemoryProjectBook.delete 0 ProjectBookState.empty).1 =
      .error (.ProjectNotFoundId 0) := by
  decide

/-- C3 (amended): `delete` returns the removed note when its id is stored
(the project book succeeds with unit, removing the project and its slug
binding), and fails with a NotFound error — not an absent value — when it
is not, on the note book and the project book alike; consequently a second
`scratch_note` on an already-removed note id observes `NoteNotFound`. -/
theorem claim_C3_amended_delete (note_id project_id now : Nat) (nst : NoteBookState)
    (pst : ProjectBookState) (sst : ServiceState) :
    (∀ n, alLookup note_id nst.notes = some n →
      InMemoryNoteBook.delete note_id nst =
        (.ok n, { notes := alErase note_id nst.notes })) ∧
    (alLookup note_id nst.notes = none →
      InMemoryNoteBook.delete note_id nst = (.error (.NoteNotFound note_id), nst)) ∧
    (∀ proj, alLookup project_id pst.projects = some proj →
      InMemoryProjectBook.delete project_id pst =
        (.ok (), { projects := alErase project_id pst.projects
                   slugs := alErase proj.slug pst.slugs })) ∧
    (alLookup project_id pst.projects = none →
      InMemoryProjectBook.delete project_id pst =
        (.error (.ProjectNotFoundId project_id), pst)) ∧
    (∀ n sst2, ThoughtService.scratch_note now note_id sst = (.ok n, sst2) →
      (ThoughtService.scratch_note now note_id sst2).1 = .error (.NoteNotFound note_id)) := by
  refine ⟨?_, ?_, ?_, ?_, ?_⟩
  · intro n hn
    unfold InMemoryNoteBook.delete
    rw [hn]
  · intro hn
    unfold InMemoryNoteBook.delete
    rw [hn]
  · intro proj hp
    unfold InMemoryProjectBook.delete
    rw [hp]
  · intro hp
    unfold InMemoryProjectBook.delete
    rw [hp]
  · intro n sst2 hok
    unfold ThoughtService.scratch_note InMemoryNoteBook.delete at hok
    cases hlk : alLookup note_id sst.noteBook.notes with
    | none =>
      rw [hlk] at hok
      simp at hok
    | some n0 =>
      rw [hlk] at hok
      simp only [Except.ok.injEq, Prod.mk.injEq] at hok
      obtain ⟨hne, hse⟩ := hok
      subst hse
      unfold ThoughtService.scratch_note InMemoryNoteBook.delete
      rw [show alLookup note_id
          (NoteBookState.mk (alErase note_id sst.noteBook.notes)).notes = none from
        alLookup_alErase_self note_id sst.noteBook.notes]

/-- Witness for C3: deleting the stored note 5 succeeds and removes it;
deleting the absent note id 6 is a NotFound error; deleting the stored
project 1 succeeds with unit, removing the project and its slug binding;
deleting the absent project id 9 is a NotFound error; and scratching note 5
a second time observes `NoteNotFound 5`. -/
theorem claim_C3_witness :
    (InMemoryNoteBook.delete 5 { notes := [(5, c3Note)] } =
      (.ok c3Note, { notes := alErase 5 [(5, c3Note)] })) ∧
    (InMemoryNoteBook.delete 6 { notes := [] } =
      (.error (.NoteNotFound 6), { notes := [] })) ∧
    (InMemoryProjectBook.delete 1 wProjectBook =
      (.ok (), { projects := alErase 1 wProjectBook.projects
                 slugs := alErase wProject.slug wProjectBook.slugs })) ∧
    (InMemoryProjectBook.delete 9 wProjectBook =
      (.error (.ProjectNotFoundId 9), wProjectBook)) ∧
    (ThoughtService.scratch_note 0 5 ((ThoughtService.scratch_note 0 5 c3SvcState).2)).1 =
      .error (.NoteNotFound 5) := by
  refine ⟨?_, ?_, ?_, ?_, ?_⟩
  · exact (claim_C3_amended_delete 5 0 0 { notes := [(5, c3Note)] }
      ProjectBookState.empty c3SvcState).1 c3Note (by decide)
  · exact (claim_C3_amended_delete 6 0 0 { notes := [] }
      ProjectBookState.empty c3SvcState).2.1 (by decide)
  · exact (claim_C3_amended_delete 5 1 0 { notes := [(5, c3Note)] }
      wProjectBook c3SvcState).2.2.1 wProject (by decide)
  · exact (claim_C3_amended_delete 5 9 0 { notes := [(5, c3Note)] }
      wProjectBook c3SvcState).2.2.2.1 (by decide)
  · exact (claim_C3_amended_delete 5 0 0 { notes := [(5, c3Note)] }
      ProjectBookState.empty c3SvcState).2.2.2.2 c3Note
      ((ThoughtService.scratch_note 0 5 c3SvcState).2)
      (Prod.ext (by decide) rfl)

/-- C10: a name that is nonempty after trimming but none of whose
transliterated, lowercased characters is an ASCII alphanumeric is accepted
by `Project::create` with the empty string as its slug; the first such
project occupies the empty slug in the book, and the repository `create`
for every later such name fails with `DuplicateSlug ""`. -/
theorem claim_C10_empty_slug_collision (uni : Char → String)
    (genId now universe_id : Nat) (name : String) (st : ProjectBookState)
    (htrim : trimChars name.data ≠ [])
    (hnone : ∀ c ∈ (trimChars (uniChars uni name.data)).map Char.toLower,
      isAsciiAlphanumeric c = false) :
    Project.create uni genId now ⟨name, universe_id⟩ =
      .ok (emptySlugProject genId now universe_id name) ∧
    (alContains "" st.slugs = false →
      InMemoryProjectBook.create uni genId now ⟨name, universe_id⟩ st =
        (.ok (emptySlugProject genId now universe_id name),
          InMemoryProjectBook.createInsert (emptySlugProject genId now universe_id name) st) ∧
      alContains ""
        (InMemoryProjectBook.createInsert (emptySlugProject genId now universe_id name)
          st).slugs = true) ∧
    (alContains "" st.slugs = true →
      (InMemoryProjectBook.create uni genId now ⟨name, universe_id⟩ st).1 =
        .error (.DuplicateSlug "")) := by
  have hslug := generate_slug_empty_of_no_alnum uni name hnone
  have hcreate : Project.create uni genId now ⟨name, universe_id⟩ =
      .ok (emptySlugProject genId now universe_id name) := by
    unfold Project.create emptySlugProject
    rw [if_neg (by simpa [List.isEmpty_iff] using htrim)]
    simp [hslug]
  refine ⟨hcreate, ?_, ?_⟩
  · intro hfalse
    have hcheck : InMemoryProjectBook.createCheck uni genId now ⟨name, universe_id⟩ st =
        .ok (emptySlugProject genId now universe_id name) := by
      unfold InMemoryProjectBook.createCheck
      rw [hcreate]
      simp [Except.bind, emptySlugProject, hfalse]
    refine ⟨?_, ?_⟩
    · unfold InMemoryProjectBook.create
      rw [hcheck]
    · simp [InMemoryProjectBook.createInsert, alContains, alInsert, alLookup, emptySlugProject]
  · intro htrue
    unfold InMemoryProjectBook.create InMemoryProjectBook.createCheck
    rw [hcreate]
    simp [Except.bind, emptySlugProject, htrue]

/-- Witness for C10: "!!!" is accepted with the empty slug; creating "???"
after "!!!" in an initially empty book fails with `DuplicateSlug ""`. -/
theorem claim_C10_witness :
    Project.create uniAscii 1 0 ⟨"!!!", 0⟩ = .ok (emptySlugProject 1 0 0 "!!!") ∧
    (InMemoryProjectBook.create uniAscii 2 0 ⟨"???", 0⟩
        (InMemoryProjectBook.create uniAscii 1 0 ⟨"!!!", 0⟩ ProjectBookState.empty).2).1 =
      .error (.DuplicateSlug "") := by
  constructor
  · exact (claim_C10_empty_slug_collision uniAscii 1 0 0 "!!!" ProjectBookState.empty
      (by decide) (by decide)).1
  · exact (claim_C10_empty_slug_collision uniAscii 2 0 0 "???"
      (InMemoryProjectBook.create uniAscii 1 0 ⟨"!!!", 0⟩ ProjectBookState.empty).2
      (by decide) (by decide)).2.2 (by decide)
